import Mathlib

/-!
# Verification of skyproj's HEALPix rasterization and sky-grid helpers

A shallow embedding, over exact rational arithmetic, of the numerical logic in
`skyproj/hpx_utils.py` and `skyproj/skygrid.py`.  External collaborators
(the `hpgeom` pixel-indexing scheme, projection transforms, healsparse maps,
and trigonometric library functions) are passed in as explicit function
parameters, mirroring the collaborator contracts of the design: the embedded
functions receive the collaborator outputs (pixel center angles, pixel ids,
fetched values, cosine values) rather than recomputing them.

Machine floats are modelled as exact rationals; `NaN`-carrying float arrays are
modelled as `Option ℚ` with `none` playing the role of `NaN`.
-/

namespace Skyproj

/-- Python's `%` operator on rationals (result has the sign of the divisor,
as used by numpy's `%` for positive modulus `360`). -/
def pyMod (a b : ℚ) : ℚ := a - b * ⌊a / b⌋

/-- Python's `int(...)` conversion: truncation toward zero. -/
def pyInt (q : ℚ) : ℤ := if 0 ≤ q then ⌊q⌋ else ⌈q⌉

/-- `np.clip(x, lo, hi)` with both bounds present. -/
def npClip (x lo hi : ℚ) : ℚ := min (max x lo) hi

/-- `np.min` of a nonempty array (0 as a junk value on the empty array,
which the source never reaches because it validates emptiness first). -/
def listMin : List ℚ → ℚ
  | [] => 0
  | x :: xs => xs.foldl min x

/-- `np.max` of a nonempty array (0 as a junk value on the empty array). -/
def listMax : List ℚ → ℚ
  | [] => 0
  | x :: xs => xs.foldl max x

/-- `np.linspace a b n`: `n` evenly spaced points from `a` to `b` inclusive.
For `n = 1` the rational division by zero yields `0`, so the single point is
`a`, matching numpy. -/
def linspace (a b : ℚ) (n : ℕ) : List ℚ :=
  (List.range n).map fun i : ℕ => a + (b - a) * (i : ℚ) / ((n - 1 : ℕ) : ℚ)

/-- `np.median`: sort ascending; middle element for odd length, the average of
the two middle elements for even length. -/
def median (l : List ℚ) : ℚ :=
  let s := l.mergeSort fun a b => decide (a ≤ b)
  let n := s.length
  if n % 2 = 1 then s.getD (n / 2) 0
  else (s.getD (n / 2 - 1) 0 + s.getD (n / 2) 0) / 2

/-- The reserved healpix sentinel `hpg.UNSEEN = -1.6375e30`. -/
def UNSEEN : ℚ := -16375 * 10 ^ 26

/-- `np.isclose(a, b)` with the default tolerances `rtol = 1e-5`,
`atol = 1e-8`; `NaN` (modelled as `none`) is never close to anything. -/
def isclose (a : Option ℚ) (b : ℚ) : Bool :=
  match a with
  | none => false
  | some q => decide (|q - b| ≤ 1 / 10 ^ 8 + |b| / 10 ^ 5)

/-- Modelled from the spec: `wrap_values` from skyproj's `utils` module (not
present in the sources under verification).  Per the spec's re-wrap formula
`((lon + wrap) mod 360) - wrap` with the default wrap angle of 180°, it wraps
a longitude into `[-180, 180)`. -/
def wrap_values (x : ℚ) : ℚ := pyMod (x + 180) 360 - 180

/-- One longitude re-wrapped by `(lon + wrap) % 360. - wrap`
(`hpx_utils.healpix_pixels_range`, line 49). -/
def lonWrap (wrap x : ℚ) : ℚ := pyMod (x + wrap) 360 - wrap

/-- The latitude bound of `healpix_pixels_range` (lines 44-45):
`(np.clip(min(lat) - eps, -90 + 1e-5, None), np.clip(max(lat) + eps, None,
90 - 1e-5))`. -/
def hprLatRange (lat : List ℚ) (eps : ℚ) : ℚ × ℚ :=
  (max (listMin lat - eps) (-90 + 1 / 100000),
   min (listMax lat + eps) (90 - 1 / 100000))

/-- The overrun check of `healpix_pixels_range` (lines 53-59): the computed
longitude bound straddles `wrap - 360` or `wrap + 360`, or spans `≥ 359`. -/
def hprFullRange (wrap lr0 lr1 : ℚ) : Bool :=
  (decide (lr0 < wrap - 360) && decide (lr1 > wrap - 360)) ||
  (decide (lr0 < wrap + 360) && decide (lr1 > wrap + 360)) ||
  decide (lr1 - lr0 ≥ 359)

/-- The longitude bound of `healpix_pixels_range` (lines 49-63): pad the
re-wrapped extremes by `eps_lon`, and on overrun replace the bound by the
full-width window around `lon_0 = wrap_values((wrap + 180) % 360)`. -/
def hprLonRange (wrap eps_lon : ℚ) (lw : List ℚ) : ℚ × ℚ :=
  let lr0 := listMin lw - eps_lon
  let lr1 := listMax lw + eps_lon
  if hprFullRange wrap lr0 lr1 then
    let lon_0 := wrap_values (pyMod (wrap + 180) 360)
    (lon_0 - 180, lon_0 + 180 - 1 / 100000)
  else (lr0, lr1)

/-- `hpx_utils.healpix_pixels_range`.  The `hpgeom` collaborator outputs are
passed directly: `lon`/`lat` are the pixel center angles from
`hpg.pixel_to_angle(nside, pixels, nest)` (element-wise, so `lon = []` exactly
when `pixels` is empty), `eps` is `hpg.max_pixel_radius(nside)`, and `cosd`
is the library cosine-of-degrees `np.cos ∘ np.deg2rad`.  Returns
`(lon_range, lat_range)`. -/
def healpix_pixels_range (cosd : ℚ → ℚ) (lon lat : List ℚ) (wrap eps : ℚ) :
    Except String ((ℚ × ℚ) × (ℚ × ℚ)) :=
  if lon.isEmpty then
    .error "No valid pixels; zoom is not available."
  else
    .ok (hprLonRange wrap (eps / cosd (median lat)) (lon.map (lonWrap wrap)),
         hprLatRange lat eps)

/-- `skygrid.SkyGridHelper._compute_n_grid_from_extent`.  `extent` is
`(lon_min, lon_max, lat_min, lat_max)`; `cosd` is `np.cos ∘ np.deg2rad`.
When either requested count is not `none`, the Python function never assigns
the corresponding local variable and raises `UnboundLocalError`, modelled as
`.error`. -/
def compute_n_grid_from_extent (cosd : ℚ → ℚ) (extent : ℚ × ℚ × ℚ × ℚ)
    (n_grid_lat_default n_grid_lon_default : Option ℤ) : Except String (ℤ × ℤ) :=
  match n_grid_lat_default, n_grid_lon_default with
  | none, none =>
    let n_grid_lat : ℤ := 6
    let latscale := cosd ((extent.2.2.1 + extent.2.2.2) / 2)
    let ratio := npClip (|extent.2.1 - extent.1| * latscale / (extent.2.2.2 - extent.2.2.1))
      (1 / 3) (5 / 3)
    let n_grid_lon : ℤ := ⌈ratio * (n_grid_lat : ℚ)⌉
    .ok (n_grid_lon, n_grid_lat)
  | _, _ => .error "UnboundLocalError: local variable referenced before assignment"

/-! ## The shared raster mesh (`np.meshgrid` + midpoint centers) -/

/-- First result of `np.meshgrid(xs, ys)`: a `ys.length × xs.length` array
whose every row is `xs`. -/
def meshgridX (xs : List ℚ) (ny : ℕ) : List (List ℚ) := List.replicate ny xs

/-- Second result of `np.meshgrid(xs, ys)`: a `ys.length × xs.length` array
whose row `i` is constantly `ys[i]`. -/
def meshgridY (ys : List ℚ) (nx : ℕ) : List (List ℚ) := ys.map (List.replicate nx)

/-- The midpoint slice `(m[1:, 1:] + m[:-1, :-1]) / 2` of a rectangular
2-d array, written by index: entry `(i, j)` is `(m[i+1][j+1] + m[i][j]) / 2`,
with one fewer row and one fewer column than `m`. -/
def gridCenters (m : List (List ℚ)) : List (List ℚ) :=
  (List.range (m.length - 1)).map fun i =>
    (List.range ((m.getD i []).length - 1)).map fun j =>
      ((m.getD (i + 1) []).getD (j + 1) 0 + (m.getD i []).getD j 0) / 2

/-- The number of mesh rows, `int(aspect * xsize)` (Python truncation). -/
def meshRows (aspect : ℚ) (xsize : ℕ) : ℕ := (pyInt (aspect * (xsize : ℚ))).toNat

/-- The longitude mesh `lon_raster` shared by the three rasterizers. -/
def lonRaster (lon_range : ℚ × ℚ) (xsize : ℕ) (aspect : ℚ) : List (List ℚ) :=
  meshgridX (linspace lon_range.1 lon_range.2 xsize) (meshRows aspect xsize)

/-- The latitude mesh `lat_raster` shared by the three rasterizers. -/
def latRaster (lat_range : ℚ × ℚ) (xsize : ℕ) (aspect : ℚ) : List (List ℚ) :=
  meshgridY (linspace lat_range.1 lat_range.2 (meshRows aspect xsize)) xsize

/-- Entry `(i, j)` of the sample-center longitude grid `clon`. -/
def rasterCenterLon (lon_range : ℚ × ℚ) (xsize : ℕ) (aspect : ℚ) (i j : ℕ) : ℚ :=
  ((gridCenters (lonRaster lon_range xsize aspect)).getD i []).getD j 0

/-- Entry `(i, j)` of the sample-center latitude grid `clat`. -/
def rasterCenterLat (lat_range : ℚ × ℚ) (xsize : ℕ) (aspect : ℚ) (i j : ℕ) : ℚ :=
  ((gridCenters (latRaster lat_range xsize aspect)).getD i []).getD j 0

/-! ## `hpx_utils.hpxmap_to_xy` and `hpx_utils.hspmap_to_xy`

Float arrays that may hold `NaN` are modelled as `Option ℚ` (`none` = `NaN`).
A raster cell is a pair `(mask, value)`: the source returns the fetched
values together with a boolean mask (`True` = invalid). -/

/-- `hpx_utils.hpxmap_to_xy`.  `a2p` is the collaborator composition
`hpg.angle_to_pixel(hpg.npixel_to_nside(hpxmap.size), ·, ·, nest)`;
`hpxmap` is the dense map.  Returns `(lon_raster, lat_raster, cells)` where
each cell holds `(np.isclose(value, UNSEEN) | np.isnan(value), value)`. -/
def hpxmap_to_xy (a2p : ℚ → ℚ → ℕ) (hpxmap : List (Option ℚ))
    (lon_range lat_range : ℚ × ℚ) (xsize : ℕ) (aspect : ℚ) :
    List (List ℚ) × List (List ℚ) × List (List (Bool × Option ℚ)) :=
  let cells := (List.range (meshRows aspect xsize - 1)).map fun i =>
    (List.range (xsize - 1)).map fun j =>
      let v := hpxmap.getD (a2p (rasterCenterLon lon_range xsize aspect i j)
        (rasterCenterLat lat_range xsize aspect i j)) none
      (isclose v UNSEEN || v.isNone, v)
  (lonRaster lon_range xsize aspect, latRaster lat_range xsize aspect, cells)

/-- `hpx_utils.hspmap_to_xy`, the generic (non-wide-mask, non-boolean) value
branch.  `getv` is the healsparse collaborator
`hspmap.get_values_pos(·, ·, valid_mask)` and `sentinel` is
`hspmap._sentinel`.  Each cell holds
`(np.isclose(value, sentinel) | np.isnan(value), value)`. -/
def hspmap_to_xy (getv : ℚ → ℚ → Option ℚ) (sentinel : ℚ)
    (lon_range lat_range : ℚ × ℚ) (xsize : ℕ) (aspect : ℚ) :
    List (List ℚ) × List (List ℚ) × List (List (Bool × Option ℚ)) :=
  let cells := (List.range (meshRows aspect xsize - 1)).map fun i =>
    (List.range (xsize - 1)).map fun j =>
      let v := getv (rasterCenterLon lon_range xsize aspect i j)
        (rasterCenterLat lat_range xsize aspect i j)
      (isclose v sentinel || v.isNone, v)
  (lonRaster lon_range xsize aspect, latRaster lat_range xsize aspect, cells)

/-! ## `hpx_utils.healpix_to_xy` -/

/-- `np.argsort(keys)`: a permutation `st` of `0, ..., n-1` with
`keys[st]` ascending (source line 205; ties are impossible there because the
pixel array is validated to be unique). -/
def argsort (keys : List ℕ) : List ℕ :=
  (List.range keys.length).mergeSort fun i j => decide (keys.getD i 0 ≤ keys.getD j 0)

/-- Functional semantics of `np.searchsorted(pixels, q, sorter=st)`
(side `'left'`): the insertion index of `q` into the sorted order of
`pixels`, i.e. the number of entries smaller than `q`. -/
def searchsorted (pixels : List ℕ) (q : ℕ) : ℕ :=
  pixels.countP fun x => decide (x < q)

/-- The per-query resolution step of `hpx_utils.healpix_to_xy`
(lines 205-218): binary-search `q` into the argsorted pixel array, clamp an
overflowing index to the last element (the source applies the clamp exactly
to the indices equal to `pixels.size`, which per query is `min` with
`pixels.size - 1`), and accept only an exact pixel-id match, returning the
paired value.  `none` means the cell is masked (and its value slot zero). -/
def resolvePixel (pixels : List ℕ) (values : List ℚ) (q : ℕ) : Option ℚ :=
  let st := argsort pixels
  let sub1 := min (searchsorted pixels q) (pixels.length - 1)
  let k := st.getD sub1 0
  if pixels.getD k 0 = q then some (values.getD k 0) else none

/-- The raster cells of `healpix_to_xy`: resolve each sample center's
pixel id against the provided pixel/value arrays; a failed resolution is a
masked cell with a zero value slot, as in the source's zero-initialized
`values_raster`. -/
def healpixCells (a2p : ℚ → ℚ → ℕ) (pixels : List ℕ) (values : List ℚ)
    (lon_range lat_range : ℚ × ℚ) (xsize : ℕ) (aspect : ℚ) :
    List (List (Bool × ℚ)) :=
  (List.range (meshRows aspect xsize - 1)).map fun i =>
    (List.range (xsize - 1)).map fun j =>
      match resolvePixel pixels values (a2p (rasterCenterLon lon_range xsize aspect i j)
          (rasterCenterLat lat_range xsize aspect i j)) with
      | some v => (false, v)
      | none => (true, 0)

/-- `hpx_utils.healpix_to_xy`.  `a2p` is the collaborator
`hpg.angle_to_pixel(nside, ·, ·, nest)`.  Fails (before building anything)
when `np.unique(pixels).size != pixels.size`. -/
def healpix_to_xy (a2p : ℚ → ℚ → ℕ) (pixels : List ℕ) (values : List ℚ)
    (lon_range lat_range : ℚ × ℚ) (xsize : ℕ) (aspect : ℚ) :
    Except String (List (List ℚ) × List (List ℚ) × List (List (Bool × ℚ))) :=
  if pixels.dedup.length ≠ pixels.length then
    .error "The pixels array must be unique."
  else
    .ok (lonRaster lon_range xsize aspect, latRaster lat_range xsize aspect,
         healpixCells a2p pixels values lon_range lat_range xsize aspect)

/-! ## `hpx_utils.healpix_bin` -/

/-- `np.add.at(arr, idx, val)` for a list of `(index, addend)` pairs:
a left fold of in-place additions, so repeated indices all accumulate. -/
def addAt (arr : List ℚ) (updates : List (ℕ × ℚ)) : List ℚ :=
  updates.foldl (fun a u => a.set u.1 (a.getD u.1 0 + u.2)) arr

/-- `hpg.nside_to_npixel`. -/
def nside_to_npixel (nside : ℕ) : ℕ := 12 * nside ^ 2

/-- `hpx_utils.healpix_bin`.  `a2p` is the collaborator
`hpg.angle_to_pixel(nside, ·, ·, nest)`; the samples are the zipped
`(lon, lat)` pairs.  `count` accumulates 1 per sample via `np.add.at`; with
values `C` supplied the per-pixel sums are accumulated likewise and divided
by the count where positive; pixels with zero count are set to `UNSEEN`. -/
def healpix_bin (a2p : ℚ → ℚ → ℕ) (lon lat : List ℚ) (C : Option (List ℚ))
    (nside : ℕ) : List ℚ :=
  let pix := (lon.zip lat).map fun p => a2p p.1 p.2
  let npix := nside_to_npixel nside
  let count := addAt (List.replicate npix 0) (pix.map fun p => (p, 1))
  match C with
  | some c =>
    let sums := addAt (List.replicate npix 0) (pix.zip c)
    (List.range npix).map fun j =>
      if 0 < count.getD j 0 then sums.getD j 0 / count.getD j 0 else UNSEEN
  | none =>
    (List.range npix).map fun j =>
      if 0 < count.getD j 0 then count.getD j 0 else UNSEEN

/-! ## `skygrid._find_line_box_crossings` -/

/-- One `(u0, inside)` iteration of `skygrid._find_line_box_crossings`:
scan consecutive polyline points, detect sign changes of being inside the
`u`-bound `u0` (`swap` selects which coordinate plays `u`; `isMin` selects
the `us > umin` versus `us < umax` test), linearly interpolate the other
coordinate at `u0`, drop interpolants outside `[vmin, vmax]`, and record the
crossing point together with `degrees(atan2(dy, dx))` of the segment
(`atan2d` is the collaborator `np.degrees ∘ np.arctan2`). -/
def crossSide (atan2d : ℚ → ℚ → ℚ) (xys : List (ℚ × ℚ)) (swap isMin : Bool)
    (u0 vmin vmax : ℚ) : List ((ℚ × ℚ) × ℚ) :=
  (List.range (xys.length - 1)).filterMap fun idx =>
    let p := xys.getD idx (0, 0)
    let q := xys.getD (idx + 1) (0, 0)
    let up := if swap then p.2 else p.1
    let uq := if swap then q.2 else q.1
    let vp := if swap then p.1 else p.2
    let insideP := if isMin then decide (up > u0) else decide (up < u0)
    let insideQ := if isMin then decide (uq > u0) else decide (uq < u0)
    if insideP != insideQ then
      let dv := if swap then q.1 - p.1 else q.2 - p.2
      let v := vp + (u0 - up) * dv / (uq - up)
      if vmin ≤ v ∧ v ≤ vmax then
        some ((if swap then (v, u0) else (u0, v)), atan2d (q.2 - p.2) (q.1 - p.1))
      else none
    else none

/-- `skygrid._find_line_box_crossings(xys, bbox)` with
`bbox = [xmin, ymin, xmax, ymax]`: the four crossing lists for the left,
right, bottom and top box sides, in that order. -/
def find_line_box_crossings (atan2d : ℚ → ℚ → ℚ) (xys : List (ℚ × ℚ))
    (xmin ymin xmax ymax : ℚ) : List (List ((ℚ × ℚ) × ℚ)) :=
  [crossSide atan2d xys false true xmin ymin ymax,
   crossSide atan2d xys false false xmax ymin ymax,
   crossSide atan2d xys true true ymin xmin xmax,
   crossSide atan2d xys true false ymax xmin xmax]

/-! ## `skygrid.SkyGridHelper`

A gridline polyline is a list of points with `Option ℚ` coordinates:
`none` is the inserted `np.nan` gap marker (the source stores a pair of
parallel coordinate arrays; the zipped form is equivalent since they always
have equal length). -/

/-- One gridline: projected points, `none` coordinates marking cut gaps. -/
abbrev GridLine : Type := List (Option ℚ × Option ℚ)

/-- The part of the cached `_grid_info` dictionary that `get_gridlines`
reads: the `"lines"` entries for each axis.  (The extremes and per-edge tick
records are also cached but never read by the methods modelled here.) -/
structure GridInfoM where
  lonLines : List GridLine
  latLines : List GridLine

/-- `np.hypot(dx, dy) > delta_cut` on consecutive points, compared on
squares (equivalent for the nonnegative thresholds the constructor picks);
comparisons against `NaN` coordinates are `False`, as in numpy. -/
def jumpGt (dc : ℚ) (p q : Option ℚ × Option ℚ) : Bool :=
  match p, q with
  | (some px, some py), (some qx, some qy) =>
      decide ((qx - px) ^ 2 + (qy - py) ^ 2 > dc ^ 2)
  | _, _ => false

/-- `SkyGridHelper._cut_grid_line_jumps`: insert a `nan` point after every
index where consecutive points jump farther than the threshold; a gridline
without such jumps is returned unmodified. -/
def insertGaps (dc : ℚ) : GridLine → GridLine
  | [] => []
  | [p] => [p]
  | p :: q :: rest =>
    if jumpGt dc p q then p :: (none, none) :: insertGaps dc (q :: rest)
    else p :: insertGaps dc (q :: rest)

/-- The `matplotlib` axis collaborator: `get_xlim()`, `get_ylim()`,
`get_extent()`. -/
structure AxisM where
  xlim : ℚ × ℚ
  ylim : ℚ × ℚ
  extent : ℚ × ℚ × ℚ × ℚ

/-- The mutable state of `SkyGridHelper` read or written by `__init__`,
`update_lim` and `get_gridlines`: the construction-time gridline-count
overrides, the discontinuity threshold, the cached `_grid_info` and the
memoized `_old_limits` (both `None` before the first update). -/
structure HelperState where
  n_grid_lon_default : Option ℤ
  n_grid_lat_default : Option ℤ
  delta_cut : ℚ
  grid_info : Option GridInfoM
  old_limits : Option (ℚ × ℚ × ℚ × ℚ)

/-- `SkyGridHelper.update_lim(axis)`: a no-op when the viewport equals the
memoized limits; otherwise recompute the gridline counts (which raises for
construction-time overrides, see `compute_n_grid_from_extent`), rebuild the
grid info and memoize the limits.  `gridInfoFn` abstracts
`get_grid_info(x1, y1, x2, y2)`, a pure function of the viewport built from
the external extreme finder, tick locators and projection transforms; only
its totality matters for the cache protocol verified here. -/
def update_lim (cosd : ℚ → ℚ) (gridInfoFn : ℚ → ℚ → ℚ → ℚ → GridInfoM)
    (st : HelperState) (ax : AxisM) : Except String HelperState :=
  let x1 := ax.xlim.1
  let x2 := ax.xlim.2
  let y1 := ax.ylim.1
  let y2 := ax.ylim.2
  if st.old_limits ≠ some (x1, x2, y1, y2) then
    match compute_n_grid_from_extent cosd ax.extent
        st.n_grid_lat_default st.n_grid_lon_default with
    | .error e => .error e
    | .ok _ =>
      .ok { st with grid_info := some (gridInfoFn x1 y1 x2 y2),
                    old_limits := some (x1, x2, y1, y2) }
  else .ok st

/-- `SkyGridHelper.__init__`: the cache fields start as `None` and the
constructor ends with an unconditional `update_lim(axis)`. -/
def skyGridHelperInit (cosd : ℚ → ℚ) (gridInfoFn : ℚ → ℚ → ℚ → ℚ → GridInfoM)
    (n_lon n_lat : Option ℤ) (delta_cut : ℚ) (ax : AxisM) :
    Except String HelperState :=
  update_lim cosd gridInfoFn
    { n_grid_lon_default := n_lon, n_grid_lat_default := n_lat,
      delta_cut := delta_cut, grid_info := none, old_limits := none } ax

/-- `SkyGridHelper.get_gridlines(axis)`: raises "Must first call
update_lim(axis)" when `_grid_info` is `None`; otherwise returns the
jump-cut gridlines of the selected axes. -/
def get_gridlines (st : HelperState) (axis : String) :
    Except String (List GridLine) :=
  match st.grid_info with
  | none => .error "Must first call update_lim(axis)"
  | some gi =>
    let xlines := if axis = "both" ∨ axis = "x" then
      (gi.lonLines.map fun gl => [insertGaps st.delta_cut gl]).flatten else []
    let ylines := if axis = "both" ∨ axis = "y" then
      (gi.latLines.map fun gl => [insertGaps st.delta_cut gl]).flatten else []
    .ok (xlines ++ ylines)

/-- The states of a `SkyGridHelper` observable through the public interface:
the state left by a successful `__init__`, and any state reached from one by
further successful `update_lim` calls (a failing `update_lim` raises before
mutating the cache fields, leaving the previous state observable). -/
inductive Reachable (cosd : ℚ → ℚ) (gridInfoFn : ℚ → ℚ → ℚ → ℚ → GridInfoM) :
    HelperState → Prop
  | init (n_lon n_lat : Option ℤ) (delta_cut : ℚ) (ax : AxisM)
      (st : HelperState) :
      skyGridHelperInit cosd gridInfoFn n_lon n_lat delta_cut ax = .ok st →
      Reachable cosd gridInfoFn st
  | step (st : HelperState) (ax : AxisM) (st2 : HelperState) :
      Reachable cosd gridInfoFn st →
      update_lim cosd gridInfoFn st ax = .ok st2 →
      Reachable cosd gridInfoFn st2

/-! ## Helper lemmas -/

theorem getD_range_map {α : Type} (f : ℕ → α) (n i : ℕ) (d : α) (h : i < n) :
    ((List.range n).map f).getD i d = f i := by
  rw [List.getD_eq_getElem _ _ (by simpa using h)]
  simp

theorem range_map_getD {α : Type} (l : List α) (d : α) :
    (List.range l.length).map (fun i => l.getD i d) = l := by
  apply List.ext_getElem (by simp)
  intro i h1 h2
  rw [List.getElem_map, List.getElem_range, List.getD_eq_getElem _ _ h2]

theorem linspace_length (a b : ℚ) (n : ℕ) : (linspace a b n).length = n := by
  rw [linspace, List.length_map, List.length_range]

theorem meshRows_one (xsize : ℕ) : meshRows 1 xsize = xsize := by
  rw [meshRows, pyInt, if_pos (by positivity), one_mul, Int.floor_natCast]
  exact Int.toNat_natCast xsize

theorem foldl_min_le_init (xs : List ℚ) (a : ℚ) : xs.foldl min a ≤ a := by
  induction xs generalizing a with
  | nil => exact le_refl a
  | cons y ys ih => exact le_trans (ih (min a y)) (min_le_left a y)

theorem foldl_min_le_mem (xs : List ℚ) (a x : ℚ) (hx : x ∈ xs) :
    xs.foldl min a ≤ x := by
  induction xs generalizing a with
  | nil => cases hx
  | cons y ys ih =>
    rcases List.mem_cons.mp hx with rfl | hx
    · exact le_trans (foldl_min_le_init ys (min a x)) (min_le_right a x)
    · exact ih (min a y) hx

theorem foldl_min_mem (xs : List ℚ) (a : ℚ) :
    xs.foldl min a = a ∨ xs.foldl min a ∈ xs := by
  induction xs generalizing a with
  | nil => exact Or.inl rfl
  | cons y ys ih =>
    rcases ih (min a y) with h | h
    · rcases min_cases a y with ⟨h2, _⟩ | ⟨h2, _⟩
      · exact Or.inl (by rw [List.foldl_cons, h, h2])
      · exact Or.inr (by rw [List.foldl_cons, h, h2]; exact List.mem_cons_self y ys)
    · exact Or.inr (List.mem_cons_of_mem y h)

theorem foldl_max_le_init (xs : List ℚ) (a : ℚ) : a ≤ xs.foldl max a := by
  induction xs generalizing a with
  | nil => exact le_refl a
  | cons y ys ih => exact le_trans (le_max_left a y) (ih (max a y))

theorem foldl_max_le_mem (xs : List ℚ) (a x : ℚ) (hx : x ∈ xs) :
    x ≤ xs.foldl max a := by
  induction xs generalizing a with
  | nil => cases hx
  | cons y ys ih =>
    rcases List.mem_cons.mp hx with rfl | hx
    · exact le_trans (le_max_right a x) (foldl_max_le_init ys (max a x))
    · exact ih (max a y) hx

theorem foldl_max_mem (xs : List ℚ) (a : ℚ) :
    xs.foldl max a = a ∨ xs.foldl max a ∈ xs := by
  induction xs generalizing a with
  | nil => exact Or.inl rfl
  | cons y ys ih =>
    rcases ih (max a y) with h | h
    · rcases max_cases a y with ⟨h2, _⟩ | ⟨h2, _⟩
      · exact Or.inl (by rw [List.foldl_cons, h, h2])
      · exact Or.inr (by rw [List.foldl_cons, h, h2]; exact List.mem_cons_self y ys)
    · exact Or.inr (List.mem_cons_of_mem y h)

theorem listMin_le_mem (l : List ℚ) (x : ℚ) (hx : x ∈ l) : listMin l ≤ x := by
  cases l with
  | nil => cases hx
  | cons y ys =>
    rcases List.mem_cons.mp hx with rfl | hx
    · exact foldl_min_le_init ys x
    · exact foldl_min_le_mem ys y x hx

theorem le_listMax_mem (l : List ℚ) (x : ℚ) (hx : x ∈ l) : x ≤ listMax l := by
  cases l with
  | nil => cases hx
  | cons y ys =>
    rcases List.mem_cons.mp hx with rfl | hx
    · exact foldl_max_le_init ys x
    · exact foldl_max_le_mem ys y x hx

theorem listMin_mem (l : List ℚ) (h : l ≠ []) : listMin l ∈ l := by
  cases l with
  | nil => exact absurd rfl h
  | cons y ys =>
    show ys.foldl min y ∈ y :: ys
    rcases foldl_min_mem ys y with h2 | h2
    · rw [h2]; exact List.mem_cons_self y ys
    · exact List.mem_cons_of_mem y h2

theorem listMax_mem (l : List ℚ) (h : l ≠ []) : listMax l ∈ l := by
  cases l with
  | nil => exact absurd rfl h
  | cons y ys =>
    show ys.foldl max y ∈ y :: ys
    rcases foldl_max_mem ys y with h2 | h2
    · rw [h2]; exact List.mem_cons_self y ys
    · exact List.mem_cons_of_mem y h2

theorem listMin_le_listMax (l : List ℚ) (h : l ≠ []) : listMin l ≤ listMax l :=
  le_trans (listMin_le_mem l _ (listMax_mem l h)) (le_refl _)

/-- The latitude bound always lands inside `[-90, 90]` (given the pixel
centers obey the collaborator contract and the pixel radius is
nonnegative). -/
theorem hprLatRange_bounds (lat : List ℚ) (eps : ℚ) (hlat : lat ≠ [])
    (heps : 0 ≤ eps) (hlatb : ∀ x ∈ lat, -90 ≤ x ∧ x ≤ 90) :
    -90 ≤ (hprLatRange lat eps).1 ∧ (hprLatRange lat eps).1 ≤ 90 ∧
    -90 ≤ (hprLatRange lat eps).2 ∧ (hprLatRange lat eps).2 ≤ 90 := by
  have hmin := hlatb (listMin lat) (listMin_mem lat hlat)
  have hmax := hlatb (listMax lat) (listMax_mem lat hlat)
  refine ⟨?_, ?_, ?_, ?_⟩
  · exact le_trans (by norm_num) (le_max_right _ _)
  · exact max_le (by linarith [hmin.2]) (by norm_num)
  · exact le_min (by linarith [hmax.1]) (by norm_num)
  · exact le_trans (min_le_right _ _) (by norm_num)

/-- The longitude window is never wider than 360°, and at least as wide as
the naive re-wrapped spread capped at `360 - 1e-5`. -/
theorem hprLonRange_width (wrap eps_lon : ℚ) (lw : List ℚ) (_hlw : lw ≠ [])
    (heps : 0 ≤ eps_lon) :
    (hprLonRange wrap eps_lon lw).2 - (hprLonRange wrap eps_lon lw).1 ≤ 360 ∧
    min (listMax lw - listMin lw) (360 - 1 / 100000)
      ≤ (hprLonRange wrap eps_lon lw).2 - (hprLonRange wrap eps_lon lw).1 := by
  simp only [hprLonRange]
  cases hfr : hprFullRange wrap (listMin lw - eps_lon) (listMax lw + eps_lon) with
  | true =>
    rw [if_pos rfl]
    constructor
    · show wrap_values (pyMod (wrap + 180) 360) + 180 - 1 / 100000
        - (wrap_values (pyMod (wrap + 180) 360) - 180) ≤ 360
      linarith
    · refine le_trans (min_le_right _ _) ?_
      show (360 : ℚ) - 1 / 100000 ≤ wrap_values (pyMod (wrap + 180) 360) + 180 - 1 / 100000
        - (wrap_values (pyMod (wrap + 180) 360) - 180)
      linarith
  | false =>
    have h359 : (listMax lw + eps_lon) - (listMin lw - eps_lon) < 359 := by
      by_contra hcon
      push_neg at hcon
      have hT : hprFullRange wrap (listMin lw - eps_lon) (listMax lw + eps_lon) = true := by
        rw [hprFullRange]
        have hd : decide ((listMax lw + eps_lon) - (listMin lw - eps_lon) ≥ 359) = true :=
          decide_eq_true (by linarith)
        rw [hd]
        simp
      rw [hfr] at hT
      exact Bool.false_ne_true hT
    rw [if_neg (by simp)]
    constructor
    · show listMax lw + eps_lon - (listMin lw - eps_lon) ≤ 360
      linarith
    · refine le_trans (min_le_left _ _) ?_
      show listMax lw - listMin lw ≤ listMax lw + eps_lon - (listMin lw - eps_lon)
      linarith

/-- Evaluation of `healpix_pixels_range` at the seam pixel set
(`wrap = 0`, centers at longitudes 359° and 1° on the equator, pixel
radius `1/4`°, unit cosine). -/
theorem hpr_eval_seam :
    healpix_pixels_range (fun _ => 1) [359, 1] [0, 0] 0 (1 / 4)
      = .ok ((3 / 4, 1437 / 4), (-1 / 4, 1 / 4)) := by
  rw [healpix_pixels_range, if_neg (by simp)]
  norm_num [hprLonRange, hprLatRange, hprFullRange, lonWrap, pyMod,
    wrap_values, listMin, listMax]

/-- Evaluation of `healpix_pixels_range` at a pixel set with naive
re-wrapped spread `359.999995°`, which triggers the full-range collapse. -/
theorem hpr_eval_wide :
    healpix_pixels_range (fun _ => 1) [0, 71999999 / 200000] [0, 0] 0 (1 / 10 ^ 7)
      = .ok ((-360, -1 / 100000), (-1 / 10 ^ 7, 1 / 10 ^ 7)) := by
  rw [healpix_pixels_range, if_neg (by simp)]
  norm_num [hprLonRange, hprLatRange, hprFullRange, lonWrap, pyMod,
    wrap_values, listMin, listMax]

/-! ## Claim theorems: `healpix_pixels_range` (C1, C2) -/

/-- C1: evaluation of `healpix_pixels_range` at the seam-straddling pixel set
of the claim — `wrap = 0`, pixel centers at longitudes 359° and 1° on the
equator, pixel radius `1/4`° (≈ nside 256), flat cosine.  None of the
overrun conditions fire, so the window is `(0.75, 359.25)`: width `358.5`,
not the claimed ≈360° full-sky collapse (the source marks this wrap logic
with a FIXME). -/
theorem healpix_pixels_range_no_full_sky_collapse :
    healpix_pixels_range (fun _ => 1) [359, 1] [0, 0] 0 (1 / 4)
      = .ok ((3 / 4, 1437 / 4), (-1 / 4, 1 / 4)) ∧
    (1437 / 4 : ℚ) - 3 / 4 = 717 / 2 ∧ (717 / 2 : ℚ) < 360 :=
  ⟨hpr_eval_seam, by norm_num, by norm_num⟩

/-- C2 (counterexample): a pixel set whose re-wrapped naive spread exceeds
`360 - 1e-5` (two equatorial pixel centers 359.999995° apart, realizable at
nside `2^29`) triggers the full-range collapse, whose width `360 - 1e-5` is
*smaller* than the naive spread — so the returned width is not always at
least the naive spread. -/
theorem healpix_pixels_range_width_lt_naive_spread :
    healpix_pixels_range (fun _ => 1) [0, 71999999 / 200000] [0, 0] 0 (1 / 10 ^ 7)
      = .ok ((-360, -1 / 100000), (-1 / 10 ^ 7, 1 / 10 ^ 7)) ∧
    listMax ([0, 71999999 / 200000].map (lonWrap 0))
      - listMin ([0, 71999999 / 200000].map (lonWrap 0)) = 71999999 / 200000 ∧
    (-1 / 100000 : ℚ) - (-360) < 71999999 / 200000 :=
  ⟨hpr_eval_wide,
   by norm_num [listMax, listMin, lonWrap, pyMod],
   by norm_num⟩

/-- C2 (amended): for every non-empty pixel set whose centers obey the
collaborator contract (latitudes in `[-90, 90]`, nonnegative pixel radius,
nonnegative cosine at the median latitude), the latitude range returned by
`healpix_pixels_range` lies within `[-90, 90]`, and the width of the
longitude range never exceeds 360° and is at least the naive re-wrapped
spread capped at `360 - 1e-5`. -/
theorem healpix_pixels_range_window_bounds
    (cosd : ℚ → ℚ) (lon lat : List ℚ) (wrap eps : ℚ)
    (hlon : lon ≠ []) (hlat : lat ≠ [])
    (heps : 0 ≤ eps) (hcos : 0 ≤ cosd (median lat))
    (hlatb : ∀ x ∈ lat, -90 ≤ x ∧ x ≤ 90)
    (r : (ℚ × ℚ) × ℚ × ℚ)
    (hr : healpix_pixels_range cosd lon lat wrap eps = .ok r) :
    (-90 ≤ r.2.1 ∧ r.2.1 ≤ 90 ∧ -90 ≤ r.2.2 ∧ r.2.2 ≤ 90) ∧
    r.1.2 - r.1.1 ≤ 360 ∧
    min (listMax (lon.map (lonWrap wrap)) - listMin (lon.map (lonWrap wrap)))
        (360 - 1 / 100000) ≤ r.1.2 - r.1.1 := by
  rw [healpix_pixels_range, if_neg (by simpa [List.isEmpty_iff] using hlon)] at hr
  rw [Except.ok.injEq] at hr
  subst hr
  have hlw : lon.map (lonWrap wrap) ≠ [] := by
    simpa using hlon
  have hepslon : 0 ≤ eps / cosd (median lat) := div_nonneg heps hcos
  refine ⟨hprLatRange_bounds lat eps hlat heps hlatb, ?_, ?_⟩
  · exact (hprLonRange_width wrap _ _ hlw hepslon).1
  · exact (hprLonRange_width wrap _ _ hlw hepslon).2

/-- C2 (witness for the amended theorem): instantiation at the seam pixel
set of C1, whose returned window is `((3/4, 1437/4), (-1/4, 1/4))`. -/
theorem healpix_pixels_range_window_bounds_witness :
    (-90 ≤ (((3 / 4 : ℚ), (1437 / 4 : ℚ)), ((-1 / 4 : ℚ), (1 / 4 : ℚ))).2.1 ∧
     (((3 / 4 : ℚ), (1437 / 4 : ℚ)), ((-1 / 4 : ℚ), (1 / 4 : ℚ))).2.1 ≤ 90 ∧
     -90 ≤ (((3 / 4 : ℚ), (1437 / 4 : ℚ)), ((-1 / 4 : ℚ), (1 / 4 : ℚ))).2.2 ∧
     (((3 / 4 : ℚ), (1437 / 4 : ℚ)), ((-1 / 4 : ℚ), (1 / 4 : ℚ))).2.2 ≤ 90) ∧
    (((3 / 4 : ℚ), (1437 / 4 : ℚ)), ((-1 / 4 : ℚ), (1 / 4 : ℚ))).1.2
      - (((3 / 4 : ℚ), (1437 / 4 : ℚ)), ((-1 / 4 : ℚ), (1 / 4 : ℚ))).1.1 ≤ 360 ∧
    min (listMax ([359, 1].map (lonWrap 0)) - listMin ([359, 1].map (lonWrap 0)))
        (360 - 1 / 100000)
      ≤ (((3 / 4 : ℚ), (1437 / 4 : ℚ)), ((-1 / 4 : ℚ), (1 / 4 : ℚ))).1.2
        - (((3 / 4 : ℚ), (1437 / 4 : ℚ)), ((-1 / 4 : ℚ), (1 / 4 : ℚ))).1.1 :=
  healpix_pixels_range_window_bounds (fun _ => 1) [359, 1] [0, 0] 0 (1 / 4)
    (by simp) (by simp) (by norm_num) (by norm_num)
    (by intro x hx; simp at hx; subst hx; norm_num)
    (((3 / 4, 1437 / 4), (-1 / 4, 1 / 4))) hpr_eval_seam

/-! ## Claim theorems: `_compute_n_grid_from_extent` (C3) -/

/-- C3: the gridline-count computation honors no override: whenever either
constructor override is supplied it raises `UnboundLocalError` (the Python
function never assigns the corresponding local), contradicting its own
docstring ("This will respect values that were set at initialization
time."); with no overrides it returns latitude count 6 and longitude count
`ceil(6 * clip(|dlon| * cos(mean_lat) / dlat, 1/3, 5/3))` — evaluated here
at extent `(0, 10, 0, 10)` with unit cosine, giving `(6, 6)`. -/
theorem compute_n_grid_override_unbound_local :
    compute_n_grid_from_extent (fun _ => 1) (0, 10, 0, 10) (some 4) none
      = .error "UnboundLocalError: local variable referenced before assignment" ∧
    compute_n_grid_from_extent (fun _ => 1) (0, 10, 0, 10) none (some 8)
      = .error "UnboundLocalError: local variable referenced before assignment" ∧
    compute_n_grid_from_extent (fun _ => 1) (0, 10, 0, 10) (some 4) (some 8)
      = .error "UnboundLocalError: local variable referenced before assignment" ∧
    compute_n_grid_from_extent (fun _ => 1) (0, 10, 0, 10) none none = .ok (6, 6) ∧
    (⌈npClip (|(10 : ℚ) - 0| * 1 / (10 - 0)) (1 / 3) (5 / 3) * (6 : ℚ)⌉ : ℤ) = 6 := by
  refine ⟨rfl, rfl, rfl, ?_, ?_⟩
  · simp only [compute_n_grid_from_extent]
    norm_num [npClip, Int.ceil_eq_iff]
  · norm_num [npClip, Int.ceil_eq_iff]

/-! ## Correctness of the argsort/searchsorted resolution (C4, C5) -/

theorem argsort_perm (keys : List ℕ) :
    (argsort keys).Perm (List.range keys.length) :=
  List.mergeSort_perm _ _

theorem argsort_length (keys : List ℕ) :
    (argsort keys).length = keys.length := by
  have := (argsort_perm keys).length_eq
  simpa using this

theorem argsort_mem_lt (keys : List ℕ) (i : ℕ) (hi : i ∈ argsort keys) :
    i < keys.length := by
  have := (argsort_perm keys).mem_iff.mp hi
  simpa using this

theorem argsort_map_sorted (keys : List ℕ) :
    ((argsort keys).map fun i => keys.getD i 0).Pairwise (· ≤ ·) := by
  have hs := @List.sorted_mergeSort ℕ
    (fun i j => decide (keys.getD i 0 ≤ keys.getD j 0))
    (by intro a b c h1 h2; simp only [decide_eq_true_eq] at h1 h2 ⊢; omega)
    (by intro a b; simp only [Bool.or_eq_true, decide_eq_true_eq]; omega)
    (List.range keys.length)
  rw [List.pairwise_map]
  exact hs.imp fun h => by simpa using h

/-- In a sorted list containing `q`, the entry at index
`countP (· < q)` — the left insertion point — is exactly `q`. -/
theorem sorted_getD_countP (L : List ℕ) (q : ℕ)
    (hs : L.Pairwise (· ≤ ·)) (hq : q ∈ L) :
    L.countP (fun x => decide (x < q)) < L.length ∧
    L.getD (L.countP (fun x => decide (x < q))) 0 = q := by
  induction L with
  | nil => cases hq
  | cons x xs ih =>
    rw [List.pairwise_cons] at hs
    obtain ⟨hx, hxs⟩ := hs
    by_cases hxq : x < q
    · have hqxs : q ∈ xs := by
        rcases List.mem_cons.mp hq with h | h
        · omega
        · exact h
      obtain ⟨ih1, ih2⟩ := ih hxs hqxs
      rw [List.countP_cons]
      simp only [decide_eq_true_eq, hxq, if_true]
      constructor
      · simpa using ih1
      · simpa using ih2
    · have hcount : List.countP (fun y => decide (y < q)) (x :: xs) = 0 := by
        rw [List.countP_eq_zero]
        intro a ha
        simp only [decide_eq_true_eq]
        rcases List.mem_cons.mp ha with rfl | ha2
        · omega
        · have := hx a ha2
          omega
      rw [hcount]
      have hxeq : x = q := by
        rcases List.mem_cons.mp hq with h | h
        · omega
        · have := hx q h
          omega
      exact ⟨by simp, by simpa using hxeq⟩

/-- Correctness of the per-query binary-search resolution: on a unique,
non-empty pixel array, a query resolves to `some` exactly when it occurs in
the array, and then to the value paired with it. -/
theorem resolvePixel_spec (pixels : List ℕ) (values : List ℚ) (q : ℕ)
    (hnodup : pixels.Nodup) (hne : pixels ≠ []) :
    ((resolvePixel pixels values q).isSome ↔ q ∈ pixels) ∧
    (∀ k, k < pixels.length → pixels.getD k 0 = q →
      resolvePixel pixels values q = some (values.getD k 0)) := by
  have hnpos : 0 < pixels.length := List.length_pos.mpr hne
  have hstlen : (argsort pixels).length = pixels.length := argsort_length pixels
  have hLperm : ((argsort pixels).map fun i => pixels.getD i 0).Perm pixels := by
    have h1 : (List.range pixels.length).map (fun i => pixels.getD i 0) = pixels :=
      range_map_getD pixels 0
    have h2 := (argsort_perm pixels).map fun i => pixels.getD i 0
    rw [h1] at h2
    exact h2
  have hLlen : ((argsort pixels).map fun i => pixels.getD i 0).length = pixels.length := by
    simp [hstlen]
  have hcount : searchsorted pixels q
      = ((argsort pixels).map fun i => pixels.getD i 0).countP fun x => decide (x < q) :=
    (hLperm.countP_eq _).symm
  by_cases hq : q ∈ pixels
  · have hqL : q ∈ (argsort pixels).map fun i => pixels.getD i 0 := hLperm.mem_iff.mpr hq
    obtain ⟨hclt, hget⟩ := sorted_getD_countP _ q (argsort_map_sorted pixels) hqL
    rw [hLlen] at hclt
    rw [← hcount] at hclt hget
    have hmin : min (searchsorted pixels q) (pixels.length - 1) = searchsorted pixels q := by
      omega
    have hcs : searchsorted pixels q < (argsort pixels).length := by omega
    have hkval : pixels.getD ((argsort pixels).getD (searchsorted pixels q) 0) 0 = q := by
      rw [List.getD_eq_getElem _ _ hcs]
      have : ((argsort pixels).map fun i => pixels.getD i 0).getD (searchsorted pixels q) 0
          = pixels.getD ((argsort pixels)[searchsorted pixels q]) 0 := by
        rw [List.getD_eq_getElem _ _ (by simpa using hcs), List.getElem_map]
      rw [this] at hget
      exact hget
    have hklt : (argsort pixels).getD (searchsorted pixels q) 0 < pixels.length :=
      argsort_mem_lt pixels _ (by
        rw [List.getD_eq_getElem _ _ hcs]
        exact List.getElem_mem hcs)
    have hres : resolvePixel pixels values q
        = some (values.getD ((argsort pixels).getD (searchsorted pixels q) 0) 0) := by
      rw [resolvePixel]
      simp only [hmin]
      rw [if_pos hkval]
    constructor
    · rw [hres]
      simp [hq]
    · intro k hk hkq
      rw [hres]
      have : (argsort pixels).getD (searchsorted pixels q) 0 = k := by
        have h1 : pixels[(argsort pixels).getD (searchsorted pixels q) 0] = q := by
          rw [← List.getD_eq_getElem pixels 0 hklt]
          exact hkval
        have h2 : pixels[k] = q := by
          rw [← List.getD_eq_getElem pixels 0 hk]
          exact hkq
        exact (List.Nodup.getElem_inj_iff hnodup).mp (by rw [h1, h2])
      rw [this]
  · have hmlt : min (searchsorted pixels q) (pixels.length - 1) < (argsort pixels).length := by
      omega
    have hkmem : (argsort pixels).getD (min (searchsorted pixels q) (pixels.length - 1)) 0
        ∈ argsort pixels := by
      rw [List.getD_eq_getElem _ _ hmlt]
      exact List.getElem_mem hmlt
    have hklt := argsort_mem_lt pixels _ hkmem
    have hkval : pixels.getD ((argsort pixels).getD
        (min (searchsorted pixels q) (pixels.length - 1)) 0) 0 ≠ q := by
      intro hEq
      apply hq
      rw [← hEq, List.getD_eq_getElem pixels 0 hklt]
      exact List.getElem_mem hklt
    have hres : resolvePixel pixels values q = none := by
      simp only [resolvePixel]
      rw [if_neg hkval]
    constructor
    · rw [hres]
      simp [hq]
    · intro k hk hkq
      exact absurd (hkq ▸ (by rw [List.getD_eq_getElem pixels 0 hk]; exact List.getElem_mem hk)) hq

theorem dedup_length_eq_iff (pixels : List ℕ) :
    pixels.dedup.length = pixels.length ↔ pixels.Nodup := by
  constructor
  · intro h
    rw [← List.dedup_eq_self]
    exact (List.dedup_sublist pixels).eq_of_length h
  · intro h
    rw [List.dedup_eq_self.mpr h]

theorem healpix_to_xy_ok (a2p : ℚ → ℚ → ℕ) (pixels : List ℕ) (values : List ℚ)
    (lon_range lat_range : ℚ × ℚ) (xsize : ℕ) (aspect : ℚ)
    (hnodup : pixels.Nodup) :
    healpix_to_xy a2p pixels values lon_range lat_range xsize aspect
      = .ok (lonRaster lon_range xsize aspect, latRaster lat_range xsize aspect,
        healpixCells a2p pixels values lon_range lat_range xsize aspect) := by
  rw [healpix_to_xy, if_neg]
  simp only [ne_eq, not_not]
  exact (dedup_length_eq_iff pixels).mpr hnodup

/-! ## Claim theorems: `healpix_to_xy` (C4, C5) -/

/-- C4: on a unique, non-empty pixel array, a raster cell of
`healpix_to_xy` is unmasked exactly when the pixel id computed for its
sample center occurs in the pixel array, and an unmasked cell carries the
value paired with that pixel id; binary-search hits on ids outside the set
(including clamped out-of-range search indices) are rejected by the
equality check and masked. -/
theorem healpix_to_xy_cell_lookup
    (a2p : ℚ → ℚ → ℕ) (pixels : List ℕ) (values : List ℚ)
    (lon_range lat_range : ℚ × ℚ) (xsize : ℕ) (aspect : ℚ)
    (hnodup : pixels.Nodup) (hne : pixels ≠ [])
    (i j : ℕ) (hi : i < meshRows aspect xsize - 1) (hj : j < xsize - 1) :
    ∃ lonr latr cells,
      healpix_to_xy a2p pixels values lon_range lat_range xsize aspect
        = .ok (lonr, latr, cells) ∧
      (((cells.getD i []).getD j (true, 0)).1 = false ↔
        a2p (rasterCenterLon lon_range xsize aspect i j)
            (rasterCenterLat lat_range xsize aspect i j) ∈ pixels) ∧
      ∀ k, k < pixels.length →
        pixels.getD k 0 = a2p (rasterCenterLon lon_range xsize aspect i j)
          (rasterCenterLat lat_range xsize aspect i j) →
        ((cells.getD i []).getD j (true, 0)).2 = values.getD k 0 := by
  refine ⟨_, _, _,
    healpix_to_xy_ok a2p pixels values lon_range lat_range xsize aspect hnodup, ?_, ?_⟩
  all_goals
    have hcell : ((healpixCells a2p pixels values lon_range lat_range xsize aspect).getD
        i []).getD j (true, 0)
        = match resolvePixel pixels values (a2p (rasterCenterLon lon_range xsize aspect i j)
            (rasterCenterLat lat_range xsize aspect i j)) with
          | some v => (false, v)
          | none => (true, 0) := by
      rw [healpixCells, getD_range_map _ _ _ _ hi, getD_range_map _ _ _ _ hj]
    obtain ⟨hsome, hval⟩ := resolvePixel_spec pixels values
      (a2p (rasterCenterLon lon_range xsize aspect i j)
        (rasterCenterLat lat_range xsize aspect i j)) hnodup hne
  · rw [hcell]
    cases hres : resolvePixel pixels values
        (a2p (rasterCenterLon lon_range xsize aspect i j)
          (rasterCenterLat lat_range xsize aspect i j)) with
    | some v =>
      rw [hres] at hsome
      simpa using hsome.mp (by simp)
    | none =>
      rw [hres] at hsome
      simp only [Option.isSome_none] at hsome
      constructor
      · intro h
        cases h
      · intro h
        exact absurd (hsome.mpr h) (by simp)
  · intro k hk hkq
    rw [hcell, hval k hk hkq]

/-- C4 (witness): instantiation at pixels `[5, 2, 9]` with values
`[50, 20, 90]`, a pixel-assignment collaborator sending every sample to
pixel id 2, and a 4×4 mesh; cell `(0, 0)` resolves to the value 20. -/
theorem healpix_to_xy_cell_lookup_witness :
    ∃ lonr latr cells,
      healpix_to_xy (fun _ _ => 2) [5, 2, 9] [50, 20, 90] (0, 1) (0, 1) 4 1
        = .ok (lonr, latr, cells) ∧
      (((cells.getD 0 []).getD 0 (true, 0)).1 = false ↔
        (fun _ _ => 2 : ℚ → ℚ → ℕ) (rasterCenterLon (0, 1) 4 1 0 0)
            (rasterCenterLat (0, 1) 4 1 0 0) ∈ [5, 2, 9]) ∧
      ∀ k, k < [5, 2, 9].length →
        [5, 2, 9].getD k 0 = (fun _ _ => 2 : ℚ → ℚ → ℕ) (rasterCenterLon (0, 1) 4 1 0 0)
          (rasterCenterLat (0, 1) 4 1 0 0) →
        (((cells.getD 0 []).getD 0 (true, 0)).2 : ℚ) = [(50 : ℚ), 20, 90].getD k 0 :=
  healpix_to_xy_cell_lookup (fun _ _ => 2) [5, 2, 9] [50, 20, 90] (0, 1) (0, 1) 4 1
    (by decide) (by simp) 0 0
    (by rw [meshRows_one]; norm_num) (by norm_num)

/-- C5: `healpix_to_xy` fails with the uniqueness validation error exactly
when the pixel array has a duplicate, and then produces no output at all;
a unique pixel array never triggers the error. -/
theorem healpix_to_xy_uniqueness_validation
    (a2p : ℚ → ℚ → ℕ) (pixels : List ℕ) (values : List ℚ)
    (lon_range lat_range : ℚ × ℚ) (xsize : ℕ) (aspect : ℚ) :
    (healpix_to_xy a2p pixels values lon_range lat_range xsize aspect
        = .error "The pixels array must be unique." ↔ ¬pixels.Nodup) ∧
    (¬pixels.Nodup → ∀ r, healpix_to_xy a2p pixels values lon_range lat_range
        xsize aspect ≠ .ok r) ∧
    (pixels.Nodup → ∃ r, healpix_to_xy a2p pixels values lon_range lat_range
        xsize aspect = .ok r) := by
  by_cases hnd : pixels.Nodup
  · have hok := healpix_to_xy_ok a2p pixels values lon_range lat_range xsize aspect hnd
    refine ⟨?_, ?_, ?_⟩
    · rw [hok]
      simp [hnd]
    · intro h
      exact absurd hnd h
    · intro _
      exact ⟨_, hok⟩
  · have herr : healpix_to_xy a2p pixels values lon_range lat_range xsize aspect
        = .error "The pixels array must be unique." := by
      rw [healpix_to_xy, if_pos]
      intro h
      exact hnd ((dedup_length_eq_iff pixels).mp h)
    refine ⟨?_, ?_, ?_⟩
    · rw [herr]
      simp [hnd]
    · intro _ r
      rw [herr]
      simp
    · intro h
      exact absurd h hnd

/-- C5 (witness): the duplicate array `[2, 2]` produces no raster. -/
theorem healpix_to_xy_uniqueness_validation_witness :
    healpix_to_xy (fun _ _ => 0) [2, 2] [1, 1] (0, 1) (0, 1) 3 1 ≠ .ok ([], [], []) :=
  (healpix_to_xy_uniqueness_validation (fun _ _ => 0) [2, 2] [1, 1]
    (0, 1) (0, 1) 3 1).2.1 (by decide) ([], [], [])

/-! ## Claim theorems: raster dimensions (C6) -/

theorem lonRaster_dims (lon_range : ℚ × ℚ) (xsize : ℕ) (aspect : ℚ) :
    (lonRaster lon_range xsize aspect).length = meshRows aspect xsize ∧
    ∀ row ∈ lonRaster lon_range xsize aspect, row.length = xsize := by
  constructor
  · simp [lonRaster, meshgridX]
  · intro row hrow
    rw [lonRaster, meshgridX] at hrow
    rw [List.eq_of_mem_replicate hrow]
    exact linspace_length _ _ _

theorem latRaster_dims (lat_range : ℚ × ℚ) (xsize : ℕ) (aspect : ℚ) :
    (latRaster lat_range xsize aspect).length = meshRows aspect xsize ∧
    ∀ row ∈ latRaster lat_range xsize aspect, row.length = xsize := by
  constructor
  · simp [latRaster, meshgridY, linspace_length]
  · intro row hrow
    rw [latRaster, meshgridY] at hrow
    obtain ⟨y, _, rfl⟩ := List.mem_map.mp hrow
    exact List.length_replicate _ _

/-- C6 (counterexample): at `aspect = 27/40`, `xsize = 4` the mesh has
`int(2.7) = 2` rows (Python truncation), not `round(2.7) = 3`. -/
theorem mesh_rows_truncated_not_rounded :
    (hpxmap_to_xy (fun _ _ => 0) [] (0, 1) (0, 1) 4 (27 / 40)).1.length = 2 ∧
    round ((27 / 40 : ℚ) * 4) = 3 := by
  constructor
  · show (lonRaster (0, 1) 4 (27 / 40)).length = 2
    rw [(lonRaster_dims (0, 1) 4 (27 / 40)).1]
    rw [meshRows, pyInt, if_pos (by norm_num)]
    have h27 : ⌊(27 / 40 : ℚ) * ((4 : ℕ) : ℚ)⌋ = 2 := by norm_num
    rw [h27]
    rfl
  · rw [round_eq]
    norm_num

/-- C6 (amended): every rasterization call builds a mesh of
`int(aspect * xsize)` rows (Python truncation toward zero, not rounding)
and `xsize` columns, and its cell-value array has one fewer row and one
fewer column than the mesh. -/
theorem raster_grid_dims
    (a2p : ℚ → ℚ → ℕ) (hpxmap : List (Option ℚ)) (getv : ℚ → ℚ → Option ℚ)
    (sentinel : ℚ) (pixels : List ℕ) (values : List ℚ)
    (lon_range lat_range : ℚ × ℚ) (xsize : ℕ) (aspect : ℚ)
    (hnodup : pixels.Nodup) :
    ((hpxmap_to_xy a2p hpxmap lon_range lat_range xsize aspect).1.length
        = meshRows aspect xsize
      ∧ (∀ row ∈ (hpxmap_to_xy a2p hpxmap lon_range lat_range xsize aspect).1,
          row.length = xsize)
      ∧ (hpxmap_to_xy a2p hpxmap lon_range lat_range xsize aspect).2.1.length
        = meshRows aspect xsize
      ∧ (∀ row ∈ (hpxmap_to_xy a2p hpxmap lon_range lat_range xsize aspect).2.1,
          row.length = xsize)
      ∧ (hpxmap_to_xy a2p hpxmap lon_range lat_range xsize aspect).2.2.length
        = meshRows aspect xsize - 1
      ∧ (∀ row ∈ (hpxmap_to_xy a2p hpxmap lon_range lat_range xsize aspect).2.2,
          row.length = xsize - 1))
    ∧ ((hspmap_to_xy getv sentinel lon_range lat_range xsize aspect).2.2.length
        = meshRows aspect xsize - 1
      ∧ (∀ row ∈ (hspmap_to_xy getv sentinel lon_range lat_range xsize aspect).2.2,
          row.length = xsize - 1))
    ∧ ∃ lonr latr cells,
        healpix_to_xy a2p pixels values lon_range lat_range xsize aspect
          = .ok (lonr, latr, cells)
        ∧ lonr.length = meshRows aspect xsize
        ∧ (∀ row ∈ lonr, row.length = xsize)
        ∧ cells.length = meshRows aspect xsize - 1
        ∧ ∀ row ∈ cells, row.length = xsize - 1 := by
  refine ⟨⟨?_, ?_, ?_, ?_, ?_, ?_⟩, ⟨?_, ?_⟩, ?_⟩
  · exact (lonRaster_dims lon_range xsize aspect).1
  · exact (lonRaster_dims lon_range xsize aspect).2
  · exact (latRaster_dims lat_range xsize aspect).1
  · exact (latRaster_dims lat_range xsize aspect).2
  · simp [hpxmap_to_xy]
  · intro row hrow
    simp only [hpxmap_to_xy] at hrow
    obtain ⟨k, _, rfl⟩ := List.mem_map.mp hrow
    simp
  · simp [hspmap_to_xy]
  · intro row hrow
    simp only [hspmap_to_xy] at hrow
    obtain ⟨k, _, rfl⟩ := List.mem_map.mp hrow
    simp
  · refine ⟨_, _, _,
      healpix_to_xy_ok a2p pixels values lon_range lat_range xsize aspect hnodup,
      (lonRaster_dims lon_range xsize aspect).1,
      (lonRaster_dims lon_range xsize aspect).2, ?_, ?_⟩
    · simp [healpixCells]
    · intro row hrow
      simp only [healpixCells] at hrow
      obtain ⟨k, _, rfl⟩ := List.mem_map.mp hrow
      simp

/-- C6 (witness for the amended theorem): the 4-column, aspect-1 raster of a
singleton pixel list has a 4×4 mesh and 3×3 cells. -/
theorem raster_grid_dims_witness :
    (hpxmap_to_xy (fun _ _ => 0) [] (0, 1) (0, 1) 4 1).1.length = meshRows 1 4 :=
  (raster_grid_dims (fun _ _ => 0) [] (fun _ _ => none) 0 [0] []
    (0, 1) (0, 1) 4 1 (by decide)).1.1

/-! ## Claim theorems: `hpxmap_to_xy` masking (C7) -/

/-- C7 (counterexample): a dense map holding `UNSEEN + 1e20` everywhere —
a value unequal to the sentinel and not `NaN` — still gets masked, because
the source tests `np.isclose` (relative tolerance `1e-5` of `|UNSEEN|`),
not equality. -/
theorem hpxmap_to_xy_masks_non_sentinel :
    ((((hpxmap_to_xy (fun _ _ => 0) (List.replicate 12 (some (UNSEEN + 10 ^ 20)))
        (0, 1) (0, 1) 2 1).2.2.getD 0 []).getD 0 (false, none)).1 = true) ∧
    ((((hpxmap_to_xy (fun _ _ => 0) (List.replicate 12 (some (UNSEEN + 10 ^ 20)))
        (0, 1) (0, 1) 2 1).2.2.getD 0 []).getD 0 (false, none)).2
      = some (UNSEEN + 10 ^ 20)) ∧
    UNSEEN + 10 ^ 20 ≠ UNSEEN := by
  have hrows : (0 : ℕ) < meshRows 1 2 - 1 := by
    rw [meshRows_one]
    norm_num
  have hcell : (((hpxmap_to_xy (fun _ _ => 0) (List.replicate 12 (some (UNSEEN + 10 ^ 20)))
      (0, 1) (0, 1) 2 1).2.2.getD 0 []).getD 0 (false, none))
      = (isclose (some (UNSEEN + 10 ^ 20)) UNSEEN || (some (UNSEEN + 10 ^ 20)).isNone,
         some (UNSEEN + 10 ^ 20)) := by
    simp only [hpxmap_to_xy]
    rw [getD_range_map _ _ _ _ hrows, getD_range_map _ _ _ _ (by norm_num : (0 : ℕ) < 2 - 1)]
    simp [List.getD]
  refine ⟨?_, ?_, ?_⟩
  · rw [hcell]
    simp only [isclose, Bool.or_eq_true, decide_eq_true_eq]
    norm_num [UNSEEN]
  · rw [hcell]
  · norm_num [UNSEEN]

/-- C7 (amended): a raster cell of `hpxmap_to_xy` carries exactly the value
fetched for its sample-center pixel, and is masked if and only if that value
is `NaN` or within the `np.isclose` default tolerance
(`|v - UNSEEN| ≤ 1e-8 + |UNSEEN| * 1e-5`) of the `UNSEEN` sentinel. -/
theorem hpxmap_to_xy_mask_iff
    (a2p : ℚ → ℚ → ℕ) (hpxmap : List (Option ℚ))
    (lon_range lat_range : ℚ × ℚ) (xsize : ℕ) (aspect : ℚ) (i j : ℕ)
    (hi : i < meshRows aspect xsize - 1) (hj : j < xsize - 1) :
    ((((hpxmap_to_xy a2p hpxmap lon_range lat_range xsize aspect).2.2.getD i []).getD
        j (false, none)).2
      = hpxmap.getD (a2p (rasterCenterLon lon_range xsize aspect i j)
          (rasterCenterLat lat_range xsize aspect i j)) none) ∧
    ((((hpxmap_to_xy a2p hpxmap lon_range lat_range xsize aspect).2.2.getD i []).getD
        j (false, none)).1 = true ↔
      (hpxmap.getD (a2p (rasterCenterLon lon_range xsize aspect i j)
          (rasterCenterLat lat_range xsize aspect i j)) none = none ∨
       ∃ x, hpxmap.getD (a2p (rasterCenterLon lon_range xsize aspect i j)
          (rasterCenterLat lat_range xsize aspect i j)) none = some x ∧
         |x - UNSEEN| ≤ 1 / 10 ^ 8 + |UNSEEN| / 10 ^ 5)) := by
  have hcell : (((hpxmap_to_xy a2p hpxmap lon_range lat_range xsize aspect).2.2.getD
      i []).getD j (false, none))
      = (isclose (hpxmap.getD (a2p (rasterCenterLon lon_range xsize aspect i j)
          (rasterCenterLat lat_range xsize aspect i j)) none) UNSEEN
          || (hpxmap.getD (a2p (rasterCenterLon lon_range xsize aspect i j)
          (rasterCenterLat lat_range xsize aspect i j)) none).isNone,
         hpxmap.getD (a2p (rasterCenterLon lon_range xsize aspect i j)
          (rasterCenterLat lat_range xsize aspect i j)) none) := by
    simp only [hpxmap_to_xy]
    rw [getD_range_map _ _ _ _ hi, getD_range_map _ _ _ _ hj]
  rw [hcell]
  refine ⟨rfl, ?_⟩
  cases hv : hpxmap.getD (a2p (rasterCenterLon lon_range xsize aspect i j)
      (rasterCenterLat lat_range xsize aspect i j)) none with
  | none => simp [isclose]
  | some x =>
    simp only [isclose, Option.isNone_some, Bool.or_false, decide_eq_true_eq,
      Option.some.injEq, reduceCtorEq, false_or]
    constructor
    · intro h
      exact ⟨x, rfl, h⟩
    · rintro ⟨y, rfl, h⟩
      exact h

/-- C7 (witness for the amended theorem): at the all-`UNSEEN+1e20` map of
the counterexample, the fetched value is reproduced in the cell. -/
theorem hpxmap_to_xy_mask_iff_witness :
    ((((hpxmap_to_xy (fun _ _ => 0) (List.replicate 12 (some (UNSEEN + 10 ^ 20)))
        (0, 1) (0, 1) 2 1).2.2.getD 0 []).getD 0 (false, none)).2
      = (List.replicate 12 (some (UNSEEN + 10 ^ 20))).getD
          ((fun _ _ => 0 : ℚ → ℚ → ℕ) (rasterCenterLon (0, 1) 2 1 0 0)
            (rasterCenterLat (0, 1) 2 1 0 0)) none) :=
  (hpxmap_to_xy_mask_iff (fun _ _ => 0) (List.replicate 12 (some (UNSEEN + 10 ^ 20)))
    (0, 1) (0, 1) 2 1 0 0 (by rw [meshRows_one]; norm_num) (by norm_num)).1

/-! ## Claim theorems: `healpix_bin` (C8) -/

/-- `np.add.at` accumulates, at each in-range index, the sum of the addends
scattered to it — repeated indices all contribute. -/
theorem addAt_getD (updates : List (ℕ × ℚ)) (arr : List ℚ) (j : ℕ)
    (hj : j < arr.length) :
    (addAt arr updates).getD j 0
      = arr.getD j 0 + ((updates.filter fun u => u.1 = j).map Prod.snd).sum := by
  induction updates generalizing arr with
  | nil => simp [addAt]
  | cons u rest ih =>
    rw [addAt, List.foldl_cons]
    have harr : rest.foldl (fun a v => a.set v.1 (a.getD v.1 0 + v.2))
        (arr.set u.1 (arr.getD u.1 0 + u.2))
        = addAt (arr.set u.1 (arr.getD u.1 0 + u.2)) rest := rfl
    rw [harr, ih _ (by simpa using hj)]
    by_cases hu : u.1 = j
    · subst hu
      rw [List.filter_cons_of_pos (by simp), List.map_cons, List.sum_cons]
      have hset : (arr.set u.1 (arr.getD u.1 0 + u.2)).getD u.1 0
          = arr.getD u.1 0 + u.2 := by
        rw [List.getD_eq_getElem _ _ (by simpa using hj)]
        exact List.getElem_set_self (by simpa using hj)
      rw [hset]
      ring
    · rw [List.filter_cons_of_neg (by simp [hu])]
      have hset : (arr.set u.1 (arr.getD u.1 0 + u.2)).getD j 0 = arr.getD j 0 := by
        by_cases hlen : u.1 < arr.length
        · rw [List.getD_eq_getElem _ _ (by simpa using hj),
            List.getD_eq_getElem _ _ hj]
          exact List.getElem_set_ne hu _
        · rw [List.set_eq_of_length_le (by omega)]
      rw [hset]

/-- Scattering `1` per sample counts the samples landing at each index. -/
theorem addAt_ones_count (pix : List ℕ) (npix j : ℕ) (hj : j < npix) :
    (addAt (List.replicate npix 0) (pix.map fun p => (p, (1 : ℚ)))).getD j 0
      = (pix.count j : ℚ) := by
  rw [addAt_getD _ _ _ (by simpa using hj)]
  rw [List.getD_eq_getElem _ _ (by simpa using hj), List.getElem_replicate]
  rw [List.filter_map, List.map_map]
  have hconst : (Prod.snd ∘ fun p : ℕ => (p, (1 : ℚ))) = fun _ => (1 : ℚ) := rfl
  rw [hconst]
  have hfilter : (fun u : ℕ × ℚ => decide (u.1 = j)) ∘ (fun p : ℕ => (p, (1 : ℚ)))
      = fun p : ℕ => decide (p = j) := rfl
  rw [hfilter]
  rw [List.map_const']
  rw [List.sum_replicate, nsmul_eq_mul, mul_one, zero_add]
  have : (pix.filter fun p => decide (p = j)).length = pix.count j := by
    rw [List.count_eq_countP, List.countP_eq_length_filter]
    congr 1
  rw [this]

/-- C8: `healpix_bin` returns one entry per pixel of the given nside; with
no sample values, an occupied pixel's value is its sample count (as a
rational) and an unoccupied pixel's is `UNSEEN`; with sample values, an
occupied pixel's value is the sum of its samples' values divided by its
count (repeated indices all contribute to both). -/
theorem healpix_bin_values
    (a2p : ℚ → ℚ → ℕ) (lon lat : List ℚ) (C : Option (List ℚ)) (nside j : ℕ)
    (hj : j < nside_to_npixel nside) :
    (healpix_bin a2p lon lat C nside).length = nside_to_npixel nside ∧
    (C = none →
      (healpix_bin a2p lon lat C nside).getD j 0
        = if 0 < ((lon.zip lat).map fun p => a2p p.1 p.2).count j
          then (((lon.zip lat).map fun p => a2p p.1 p.2).count j : ℚ) else UNSEEN) ∧
    (∀ c, C = some c →
      (healpix_bin a2p lon lat C nside).getD j 0
        = if 0 < ((lon.zip lat).map fun p => a2p p.1 p.2).count j
          then (((((lon.zip lat).map fun p => a2p p.1 p.2).zip c).filter
              fun u => u.1 = j).map Prod.snd).sum
            / (((lon.zip lat).map fun p => a2p p.1 p.2).count j : ℚ)
          else UNSEEN) := by
  refine ⟨?_, ?_, ?_⟩
  · cases C with
    | none => simp [healpix_bin]
    | some c => simp [healpix_bin]
  · intro hC
    subst hC
    simp only [healpix_bin]
    rw [getD_range_map _ _ _ _ hj]
    rw [addAt_ones_count _ _ _ hj]
    by_cases hcount : 0 < ((lon.zip lat).map fun p => a2p p.1 p.2).count j
    · rw [if_pos (by exact_mod_cast hcount), if_pos hcount]
    · rw [if_neg (by exact_mod_cast hcount), if_neg hcount]
  · intro c hC
    subst hC
    simp only [healpix_bin]
    rw [getD_range_map _ _ _ _ hj]
    rw [addAt_ones_count _ _ _ hj]
    rw [addAt_getD _ _ _ (by simpa using hj)]
    rw [List.getD_eq_getElem _ _ (by simpa using hj), List.getElem_replicate, zero_add]
    by_cases hcount : 0 < ((lon.zip lat).map fun p => a2p p.1 p.2).count j
    · rw [if_pos (by exact_mod_cast hcount), if_pos hcount]
    · rw [if_neg (by exact_mod_cast hcount), if_neg hcount]

/-- C8 (witness): two identical samples sent to pixel 3 at nside 1. -/
theorem healpix_bin_values_witness :
    (healpix_bin (fun _ _ => 3) [0, 0] [0, 0] none 1).length = nside_to_npixel 1 ∧
    (none = (none : Option (List ℚ)) →
      (healpix_bin (fun _ _ => 3) [0, 0] [0, 0] none 1).getD 3 0
        = if 0 < (([(0 : ℚ), 0].zip [(0 : ℚ), 0]).map fun p =>
              (fun _ _ => 3 : ℚ → ℚ → ℕ) p.1 p.2).count 3
          then ((([(0 : ℚ), 0].zip [(0 : ℚ), 0]).map fun p =>
              (fun _ _ => 3 : ℚ → ℚ → ℕ) p.1 p.2).count 3 : ℚ) else UNSEEN) ∧
    (∀ c, (none : Option (List ℚ)) = some c →
      (healpix_bin (fun _ _ => 3) [0, 0] [0, 0] none 1).getD 3 0
        = if 0 < (([(0 : ℚ), 0].zip [(0 : ℚ), 0]).map fun p =>
              (fun _ _ => 3 : ℚ → ℚ → ℕ) p.1 p.2).count 3
          then ((((([(0 : ℚ), 0].zip [(0 : ℚ), 0]).map fun p =>
              (fun _ _ => 3 : ℚ → ℚ → ℕ) p.1 p.2).zip c).filter
              fun u => u.1 = 3).map Prod.snd).sum
            / ((([(0 : ℚ), 0].zip [(0 : ℚ), 0]).map fun p =>
              (fun _ _ => 3 : ℚ → ℚ → ℕ) p.1 p.2).count 3 : ℚ)
          else UNSEEN) :=
  healpix_bin_values (fun _ _ => 3) [0, 0] [0, 0] none 1 3 (by norm_num [nside_to_npixel])

/-! ## Claim theorems: `_find_line_box_crossings` (C9) -/

/-- C9: the polyline `[(-2, 0), (2, 0)]` against the box `[-1, 1]²` yields
exactly one left crossing at `(-1, 0)` and one right crossing at `(1, 0)`,
both with crossing angle `atan2(0, 4) = 0` degrees, and no bottom or top
crossings. -/
theorem find_line_box_crossings_horizontal (atan2d : ℚ → ℚ → ℚ)
    (h : atan2d 0 4 = 0) :
    find_line_box_crossings atan2d [((-2 : ℚ), (0 : ℚ)), (2, 0)] (-1) (-1) 1 1
      = [[((-1, 0), 0)], [((1, 0), 0)], [], []] := by
  have e : find_line_box_crossings atan2d [((-2 : ℚ), (0 : ℚ)), (2, 0)] (-1) (-1) 1 1
      = [[((-1, 0), atan2d 0 4)], [((1, 0), atan2d 0 4)], [], []] := by
    norm_num [find_line_box_crossings, crossSide, List.range_succ,
      List.filterMap_cons, List.filterMap_nil]
  rw [e, h]

/-- C9 (witness): instantiation with the zero angle collaborator. -/
theorem find_line_box_crossings_horizontal_witness :
    find_line_box_crossings (fun _ _ => 0) [((-2 : ℚ), (0 : ℚ)), (2, 0)] (-1) (-1) 1 1
      = [[((-1, 0), 0)], [((1, 0), 0)], [], []] :=
  find_line_box_crossings_horizontal (fun _ _ => 0) rfl

/-! ## Claim theorems: `SkyGridHelper` initialization (C10) -/

theorem init_grid_info_isSome (cosd : ℚ → ℚ)
    (gridInfoFn : ℚ → ℚ → ℚ → ℚ → GridInfoM) (n_lon n_lat : Option ℤ)
    (delta_cut : ℚ) (ax : AxisM) (st : HelperState)
    (h : skyGridHelperInit cosd gridInfoFn n_lon n_lat delta_cut ax = .ok st) :
    st.grid_info.isSome := by
  simp only [skyGridHelperInit, update_lim] at h
  rw [if_pos (by simp)] at h
  rcases hc : compute_n_grid_from_extent cosd ax.extent n_lat n_lon with e | p
  · rw [hc] at h
    simp at h
  · rw [hc] at h
    rw [Except.ok.injEq] at h
    subst h
    simp

theorem update_lim_preserves_isSome (cosd : ℚ → ℚ)
    (gridInfoFn : ℚ → ℚ → ℚ → ℚ → GridInfoM) (st : HelperState) (ax : AxisM)
    (st2 : HelperState) (h : update_lim cosd gridInfoFn st ax = .ok st2)
    (hsome : st.grid_info.isSome) : st2.grid_info.isSome := by
  simp only [update_lim] at h
  by_cases hcond : st.old_limits ≠ some (ax.xlim.1, ax.xlim.2, ax.ylim.1, ax.ylim.2)
  · rw [if_pos hcond] at h
    rcases hc : compute_n_grid_from_extent cosd ax.extent st.n_grid_lat_default
        st.n_grid_lon_default with e | p
    · rw [hc] at h
      simp at h
    · rw [hc] at h
      rw [Except.ok.injEq] at h
      subst h
      simp
  · rw [if_neg hcond] at h
    rw [Except.ok.injEq] at h
    subst h
    exact hsome

/-- C10: through the public interface — a successful constructor call
followed by any sequence of successful `update_lim` calls — the grid-info
cache is always populated, so `get_gridlines` never raises the
"Must first call update_lim(axis)" error. -/
theorem get_gridlines_never_uninitialized (cosd : ℚ → ℚ)
    (gridInfoFn : ℚ → ℚ → ℚ → ℚ → GridInfoM) (st : HelperState)
    (hst : Reachable cosd gridInfoFn st) (axis : String) :
    ∃ gls, get_gridlines st axis = .ok gls := by
  have hsome : st.grid_info.isSome := by
    induction hst with
    | init n_lon n_lat delta_cut ax st h =>
      exact init_grid_info_isSome cosd gridInfoFn n_lon n_lat delta_cut ax st h
    | step st ax st2 hr hupd ih =>
      exact update_lim_preserves_isSome cosd gridInfoFn st ax st2 hupd ih
  obtain ⟨gi, hgi⟩ := Option.isSome_iff_exists.mp hsome
  rw [get_gridlines, hgi]
  exact ⟨_, rfl⟩

/-- C10 (witness): the state built by a successful constructor call with no
overrides and viewport `(0, 1) × (0, 1)` answers `get_gridlines`. -/
theorem get_gridlines_never_uninitialized_witness :
    ∃ gls, get_gridlines
      { n_grid_lon_default := none, n_grid_lat_default := none, delta_cut := 80,
        grid_info := some ⟨[], []⟩, old_limits := some (0, 1, 0, 1) } "both"
      = .ok gls :=
  get_gridlines_never_uninitialized (fun _ => 1) (fun _ _ _ _ => ⟨[], []⟩) _
    (Reachable.init none none 80 ⟨(0, 1), (0, 1), (0, 10, 0, 10)⟩ _ (by
      have hc : compute_n_grid_from_extent (fun _ => 1) (0, 10, 0, 10) none none
          = .ok (6, 6) := by
        simp only [compute_n_grid_from_extent]
        norm_num [npClip, Int.ceil_eq_iff]
      simp only [skyGridHelperInit, update_lim]
      rw [if_pos (by simp)]
      rw [hc]))
    "both"

end Skyproj
